import Mathlib

/-!
Verification of the template-generation pipeline of the `aaa-generator`
repository (package `internal/template`, file `config.go`).

The Go code is shallowly embedded: every pure function is translated to a
computable Lean function; the stateful `Generate` pipeline is modelled by
explicit accumulation of the file-system actions it performs, with the
external collaborators (the Go `text/template` engine, the shell, stdin)
passed in as function parameters.  Machine-level details that no claim
touches (the lexical `filepath.Clean` step inside `filepath.Join` /
`filepath.Dir`, Unicode white-space beyond Latin-1) are noted at the
definition that elides them.
-/

namespace AaaGen

/-! ### Go `strings` primitives

Each helper mirrors the corresponding function of Go's `strings` package,
working on the character list of the string. -/

/-- Go `strings.HasPrefix s p`. -/
def hasLead (s p : String) : Bool := p.data.isPrefixOf s.data

/-- Go `strings.HasSuffix s suf`. -/
def hasTrail (s suf : String) : Bool := suf.data.isSuffixOf s.data

/-- Go `strings.TrimPrefix s p`: removes one leading occurrence of `p`. -/
def trimLead (s p : String) : String :=
  if p.data.isPrefixOf s.data then String.mk (s.data.drop p.data.length) else s

/-- Go `strings.TrimSuffix s suf`: removes one trailing occurrence of `suf`. -/
def trimTrail (s suf : String) : String :=
  if suf.data.isSuffixOf s.data then
    String.mk (s.data.take (s.data.length - suf.data.length))
  else s

/-- White-space test of Go `unicode.IsSpace` restricted to the Latin-1 range
(space, tab, newline, vertical tab, form feed, carriage return, NEL, NBSP).
Higher Unicode space code points are elided; no claim involves them. -/
def isGoSpace (c : Char) : Bool :=
  c == ' ' || c == '\t' || c == '\n' || c == '\x0b' || c == '\x0c' ||
  c == '\r' || c == '\u0085' || c == ' '

/-- Go `strings.TrimSpace`. -/
def trimSpace (s : String) : String :=
  String.mk (((s.data.dropWhile isGoSpace).reverse.dropWhile isGoSpace).reverse)

/-- Go `strings.Trim s "/"`: strips `/` characters from both ends. -/
def trimSlashes (s : String) : String :=
  String.mk (((s.data.dropWhile (· == '/')).reverse.dropWhile (· == '/')).reverse)

/-- Go `filepath.Base` on a Unix path: strip trailing slashes, then keep
everything after the last `/`; empty input gives `"."`, all-slashes give
`"/"`. -/
def baseName (path : String) : String :=
  if path = "" then "."
  else
    let l := (path.data.reverse.dropWhile (· == '/')).reverse
    let b := (l.reverse.takeWhile (· != '/')).reverse
    if b = [] then "/" else String.mk b

/-- Go `filepath.Join a b` restricted to the concatenation step.  The
lexical `filepath.Clean` pass that Go additionally applies is elided: no
claim inspects a joined path beyond the shape produced here. -/
def joinPath (a b : String) : String :=
  if b = "" then a else if a = "" then b else a ++ "/" ++ b

/-- Go `filepath.Dir` on a Unix path (the `filepath.Clean` pass elided):
everything before the last `/`, `"."` when there is no slash, `"/"` when
only a leading slash remains. -/
def dirName (path : String) : String :=
  match path.data.reverse.dropWhile (· != '/') with
  | [] => "."
  | [_] => "/"
  | _ :: rest => String.mk rest.reverse

/-! ### Data model (`config.go`, first part) -/

/-- `FileRule` of `config.go`: the Go field `Type` is rendered `Kind` here
because `Type` is a Lean keyword; `Condition` is carried but unused by the
matching algorithm, exactly as in the source. -/
structure FileRule where
  Source : String
  Target : String
  Kind : String
  Condition : String
deriving Repr, DecidableEq

/-- `TemplateVar` of `config.go` (Go field `Type` rendered `Kind`). -/
structure TemplateVar where
  Name : String
  Kind : String
  Required : Bool
  Default : String
  Options : List String
  Description : String
deriving Repr, DecidableEq

/-- `PostCommand` of `config.go`. -/
structure PostCommand where
  Command : String
  WorkDir : String
deriving Repr, DecidableEq

/-- `TemplateConfig` of `config.go` (fields irrelevant to generation kept
for fidelity). -/
structure TemplateConfig where
  Name : String
  DisplayName : String
  Description : String
  Version : String
  Author : String
  Tags : List String
  Variables : List TemplateVar
  Files : List FileRule
  PostGenerate : List PostCommand
deriving Repr, DecidableEq

/-! ### The path mapper (`mapTargetPath`, `joinRuleTarget`) -/

/-- `joinRuleTarget` of `config.go` lines 337–353: trims and de-slashes the
rule target, treats `"."` as empty, and joins with `/`. -/
def joinRuleTarget (target rel : String) : String :=
  let base := trimSlashes (trimSpace target)
  let base := if base = "." then "" else base
  if rel = "" then base
  else if base = "" then rel
  else base ++ "/" ++ rel

/-- Body of the rule loop of `mapTargetPath` (`config.go` lines 295–332)
for one rule against the already-normalized path: `some mapped` when the
rule matches, `none` when the loop would `continue`. A blank source is
skipped; the rule type defaults to `directory`; a directory rule matches on
equality or on the `src ++ "/"` path prefix (an empty trimmed source is a
catch-all); a file rule matches only on equality. -/
def applyRule (rule : FileRule) (normalized : String) : Option String :=
  let src0 := trimSpace rule.Source
  if src0 = "" then none
  else
    let src1 := trimLead (trimLead src0 "./") "/"
    let ruleType := trimSpace rule.Kind
    let ruleType := if ruleType = "" then "directory" else ruleType
    if ruleType = "directory" then
      let src := trimTrail src1 "/"
      if src = "" then some (joinRuleTarget rule.Target normalized)
      else if normalized = src then some (joinRuleTarget rule.Target "")
      else if hasLead normalized (src ++ "/") then
        some (joinRuleTarget rule.Target (trimLead normalized (src ++ "/")))
      else none
    else if ruleType = "file" then
      let src := trimTrail src1 "/"
      if normalized = src then
        let rel := trimSpace rule.Target
        let rel := if rel = "" then baseName src else rel
        some (trimLead rel "./")
      else none
    else none

/-- The `for _, rule := range rules` loop of `mapTargetPath` together with
the final `return normalized, false`. -/
def mapLoop : List FileRule → String → String × Bool
  | [], normalized => (normalized, false)
  | rule :: rest, normalized =>
    match applyRule rule normalized with
    | some mapped => (mapped, true)
    | none => mapLoop rest normalized

/-- Path normalization at the head of `mapTargetPath` (`config.go` lines
289–290): strip one leading `./`, then one leading `/`. -/
def normalizePath (path : String) : String :=
  trimLead (trimLead path "./") "/"

/-- `mapTargetPath` of `config.go` lines 288–335. -/
def mapTargetPath (rules : List FileRule) (path : String) : String × Bool :=
  let normalized := normalizePath path
  if normalized = "" then ("", true)
  else mapLoop rules normalized

example : mapTargetPath [⟨"a", "x", "directory", ""⟩, ⟨"", "y", "directory", ""⟩] "a/b.txt"
    = ("x/b.txt", true) := by decide

example : mapTargetPath [⟨"", "", "directory", ""⟩] "a.txt" = ("a.txt", false) := by decide

example : mapTargetPath [] "a.txt" = ("a.txt", false) := by decide

example : mapTargetPath [⟨"README.md", "docs/readme.md", "file", ""⟩] "README.md"
    = ("docs/readme.md", true) := by decide

example : mapTargetPath [⟨"README.md", "docs/readme.md", "file", ""⟩] "README.md.bak"
    = ("README.md.bak", false) := by decide

example : mapTargetPath [⟨"/", "", "directory", ""⟩] "a/b.txt" = ("a/b.txt", true) := by decide

/-! ### Variable collection (`collectVariables`, `promptForVariable`) -/

/-- `contains` of `config.go` lines 355–362. -/
def contains : List String → String → Bool
  | [], _ => false
  | option :: rest, value => if option = value then true else contains rest value

/-- Lookup in the `map[string]interface{}` variable bag.  Every value the
generator stores is a string, so the bag is an association list; since
`collectVariables` inserts a key at most once, first-binding lookup is a
faithful model of the Go map. -/
def bagFind : List (String × String) → String → Option String
  | [], _ => none
  | (k, v) :: rest, key => if k = key then some v else bagFind rest key

/-- The `_, exists := vars[variable.Name]` membership test. -/
def bagHas (bag : List (String × String)) (key : String) : Bool :=
  (bagFind bag key).isSome

/-- `promptForVariable` (`config.go` lines 156–175).  Stdin is the list of
remaining input lines; reading at end of input fails like the Go
`ReadString` error, and blank (trimmed-empty) lines are retried, exactly
the Go loop. -/
def promptForVariable : List String → TemplateVar → Except String (String × List String)
  | [], _ => Except.error "EOF"
  | line :: rest, v =>
    let value := trimSpace line
    if value = "" then promptForVariable rest v
    else Except.ok (value, rest)

/-- The `for _, variable := range config.Variables` loop of
`collectVariables` (`config.go` lines 129–151), threading the bag and the
remaining interactive input: skip names already in the bag; start from the
default; prompt when required and blank; reject a select value outside the
declared options; otherwise store the value. -/
def collectLoop : List TemplateVar → List String → List (String × String) →
    Except String (List (String × String) × List String)
  | [], inputs, vars => Except.ok (vars, inputs)
  | v :: rest, inputs, vars =>
    if bagHas vars v.Name then collectLoop rest inputs vars
    else
      match (if v.Required ∧ trimSpace v.Default = "" then promptForVariable inputs v
             else Except.ok (v.Default, inputs)) with
      | Except.error e => Except.error e
      | Except.ok (value, inputs) =>
        if v.Kind = "select" ∧ v.Options ≠ [] ∧ contains v.Options value = false then
          Except.error ("invalid value " ++ value ++ " for variable " ++ v.Name)
        else collectLoop rest inputs (vars ++ [(v.Name, value)])

/-- `collectVariables` (`config.go` lines 117–154): seed the bag with the
built-in `ProjectName` and `ModuleName` entries, return it unchanged for a
nil config, otherwise run the declaration loop. -/
def collectVariables (cfg : Option TemplateConfig) (projectName : String)
    (inputs : List String) :
    Except String (List (String × String) × List String) :=
  let vars := [("ProjectName", projectName), ("ModuleName", projectName)]
  match cfg with
  | none => Except.ok (vars, inputs)
  | some c => collectLoop c.Variables inputs vars

/-! ### File materialization (`generateFiles`, `processTemplate`) -/

/-- One entry of the bundle's file tree, as seen by `fs.WalkDir` in walk
order: its slash-separated path, whether it is a directory, and its byte
content (empty for directories). -/
structure Entry where
  path : String
  isDir : Bool
  content : String
deriving Repr, DecidableEq

/-- A file-system mutation performed by the generator. -/
inductive FsAction where
  | mkdirAll (path : String)
  | createFile (path : String)
  | writeFile (path : String) (content : String)
deriving Repr, DecidableEq

/-- The Go `text/template` engine, external to this repository, as an
oracle: `Parse` yields a parse error or an executable template which, run
against a variable bag, yields an execution error or the rendered text. -/
abbrev Renderer := String → Except String (List (String × String) → Except String String)

/-- The per-entry path decision of the `generateFiles` walk callback
(`config.go` lines 184–204): skip the walk root `"."` and `template.yaml`;
with no rules (`useRules` false, which also covers a nil config) keep the
path unchanged; with rules keep the mapped path when the mapper matches
and skip the entry otherwise.  (`filepath.FromSlash` is the identity on
Unix and is dropped.) -/
def entryTarget (rules : List FileRule) (path : String) : Option String :=
  if path = "." then none
  else if path = "template.yaml" then none
  else if rules = [] then some path
  else
    match mapTargetPath rules path with
    | (mapped, true) => some mapped
    | (_, false) => none

/-- `processTemplate` (`config.go` lines 224–245): parse, create the parent
directory and the output file, then execute the template into it.  The
actions performed are returned even on failure — on an execution error the
created (empty) file remains on disk, matching the Go code. -/
def processTemplate (render : Renderer) (content targetPath : String)
    (vars : List (String × String)) : List FsAction × Except String Unit :=
  match render content with
  | Except.error e =>
    ([], Except.error ("failed to parse template " ++ targetPath ++ ": " ++ e))
  | Except.ok exec =>
    let pre := [FsAction.mkdirAll (dirName targetPath), FsAction.createFile targetPath]
    match exec vars with
    | Except.error e =>
      (pre, Except.error ("failed to execute template " ++ targetPath ++ ": " ++ e))
    | Except.ok rendered => (pre ++ [FsAction.writeFile targetPath rendered], Except.ok ())

/-- One `fs.WalkDir` callback invocation of `generateFiles` (`config.go`
lines 180–221): the actions performed and the callback result.
`fs.ReadFile` is modelled as supplying the entry's content, and
`os.MkdirAll` / `os.WriteFile` as succeeding — no claim concerns I/O
failure propagation. -/
def entryActions (render : Renderer) (rules : List FileRule)
    (projectName : String) (vars : List (String × String)) (e : Entry) :
    List FsAction × Except String Unit :=
  match entryTarget rules e.path with
  | none => ([], Except.ok ())
  | some relativePath =>
    let targetPath := joinPath projectName relativePath
    if e.isDir then ([FsAction.mkdirAll targetPath], Except.ok ())
    else if hasTrail e.path ".tmpl" then
      processTemplate render e.content (trimTrail targetPath ".tmpl") vars
    else ([FsAction.writeFile targetPath e.content], Except.ok ())

/-- `generateFiles` (`config.go` lines 177–222) over the bundle entries in
walk order; the walk aborts at the first callback error, as `fs.WalkDir`
does. -/
def generateFiles (render : Renderer) (rules : List FileRule)
    (projectName : String) (vars : List (String × String)) :
    List Entry → List FsAction × Except String Unit
  | [] => ([], Except.ok ())
  | e :: rest =>
    match entryActions render rules projectName vars e with
    | (acts, Except.error msg) => (acts, Except.error msg)
    | (acts, Except.ok _) =>
      let (more, r) := generateFiles render rules projectName vars rest
      (acts ++ more, r)

/-! ### Post-generation commands (`runPostCommands`) -/

/-- One attempted shell command: the rendered command line, the working
directory, and whether the child process succeeded. -/
structure ExecutedCmd where
  cmd : String
  dir : String
  ok : Bool
deriving Repr, DecidableEq

/-- `processCommandTemplate` (`config.go` lines 274–286): render the
command string against the bag, falling back to the original unrendered
text when parsing or execution fails. -/
def processCommandTemplate (render : Renderer) (command : String)
    (vars : List (String × String)) : String :=
  match render command with
  | Except.error _ => command
  | Except.ok exec =>
    match exec vars with
    | Except.error _ => command
    | Except.ok s => s

/-- The command loop of `runPostCommands` (`config.go` lines 252–269).
`runCmd` stands for `exec.Command("sh", "-c", …).Run()`, reporting the
child's success; a failure only prints a warning — the loop never returns
early. -/
def runPostLoop (runCmd : String → String → Bool) (render : Renderer)
    (projectName : String) (vars : List (String × String)) :
    List PostCommand → List ExecutedCmd
  | [] => []
  | command :: rest =>
    let cmdStr := processCommandTemplate render command.Command vars
    let workDir := joinPath projectName command.WorkDir
    let workDir := if workDir = "" then projectName else workDir
    let ok := runCmd cmdStr workDir
    ⟨cmdStr, workDir, ok⟩ :: runPostLoop runCmd render projectName vars rest

/-- `runPostCommands` (`config.go` lines 247–272): the commands executed
and the function's result, which is `nil` on every path of the source. -/
def runPostCommands (runCmd : String → String → Bool) (render : Renderer)
    (cfg : Option TemplateConfig) (projectName : String)
    (vars : List (String × String)) : List ExecutedCmd × Except String Unit :=
  match cfg with
  | none => ([], Except.ok ())
  | some c =>
    if c.PostGenerate = [] then ([], Except.ok ())
    else (runPostLoop runCmd render projectName vars c.PostGenerate, Except.ok ())

/-! ### The `Generate` pipeline -/

/-- Outcome of the initial `os.Stat(projectName)` existence check. -/
inductive StatResult where
  | found
  | notFound
  | failed (msg : String)
deriving Repr, DecidableEq

/-- Everything one `Generate` call did: the file-system mutations in
order, the post-generation commands attempted in order, and the returned
error value. -/
structure GenOutcome where
  fsActions : List FsAction
  commandsRun : List ExecutedCmd
  result : Except String Unit
deriving Repr

/-- The file rules `generateFiles` consults (`tmpl.Config.Files`, with a
nil config contributing none — the `useRules` guard). -/
def cfgRules : Option TemplateConfig → List FileRule
  | none => []
  | some c => c.Files

/-- The declared post-generation commands of a (possibly nil) config. -/
def cfgCommands : Option TemplateConfig → List PostCommand
  | none => []
  | some c => c.PostGenerate

/-- The part of `Generate` after successful variable collection
(`config.go` lines 96–114): create the project directory, generate the
files, then run the post commands, wrapping each phase's error. -/
def generateCore (render : Renderer) (runCmd : String → String → Bool)
    (cfg : Option TemplateConfig) (entries : List Entry)
    (projectName : String) (vars : List (String × String)) : GenOutcome :=
  let mk := FsAction.mkdirAll projectName
  match generateFiles render (cfgRules cfg) projectName vars entries with
  | (acts, Except.error e) =>
    ⟨mk :: acts, [], Except.error ("failed to generate files: " ++ e)⟩
  | (acts, Except.ok _) =>
    match runPostCommands runCmd render cfg projectName vars with
    | (execd, Except.error e) =>
      ⟨mk :: acts, execd, Except.error ("failed to run post commands: " ++ e)⟩
    | (execd, Except.ok _) => ⟨mk :: acts, execd, Except.ok ()⟩

/-- `Generate` (`config.go` lines 79–115).  Template resolution
(`GetTemplate`) belongs to the external registry, so the resolved bundle is
passed in: its parsed config (`none` for nil) and its file tree in walk
order.  The pipeline is: existence precheck, variable collection, then the
writing stages of `generateCore` — each earlier failure returning before
the later phases run. -/
def Generate (stat : StatResult) (cfg : Option TemplateConfig)
    (entries : List Entry) (projectName : String) (inputs : List String)
    (render : Renderer) (runCmd : String → String → Bool) : GenOutcome :=
  match stat with
  | StatResult.found =>
    ⟨[], [], Except.error ("directory " ++ projectName ++ " already exists")⟩
  | StatResult.failed msg =>
    ⟨[], [], Except.error ("failed to check project directory: " ++ msg)⟩
  | StatResult.notFound =>
    match collectVariables cfg projectName inputs with
    | Except.error e => ⟨[], [], Except.error e⟩
    | Except.ok (vars, _) => generateCore render runCmd cfg entries projectName vars

/-! ### Helper lemmas -/

/-- The rule loop realizes first-match semantics: its value is determined
by the first rule (in declared order) that produces a mapping. -/
lemma mapLoop_eq_findSome (rules : List FileRule) (n : String) :
    mapLoop rules n =
      match List.findSome? (fun r => applyRule r n) rules with
      | some mapped => (mapped, true)
      | none => (n, false) := by
  induction rules with
  | nil => rfl
  | cons r rest ih =>
    unfold mapLoop
    rw [List.findSome?_cons]
    cases happ : applyRule r n with
    | none => simpa using ih
    | some mapped => rfl

/-- If no rule produces a mapping, the loop falls through to
`(normalized, false)`. -/
lemma mapLoop_all_none {rules : List FileRule} {n : String}
    (h : ∀ r ∈ rules, applyRule r n = none) : mapLoop rules n = (n, false) := by
  induction rules with
  | nil => rfl
  | cons r rest ih =>
    unfold mapLoop
    rw [h r (List.mem_cons_self r rest)]
    exact ih fun x hx => h x (List.mem_cons_of_mem r hx)

/-- Appending a binding on the right never changes an existing lookup. -/
lemma bagFind_append_of_some {bag : List (String × String)} {key val : String}
    (h : bagFind bag key = some val) (l : List (String × String)) :
    bagFind (bag ++ l) key = some val := by
  induction bag with
  | nil => exact absurd h (by simp [bagFind])
  | cons p rest ih =>
    obtain ⟨k0, v0⟩ := p
    simp only [List.cons_append, bagFind] at h ⊢
    by_cases hk : k0 = key
    · rw [if_pos hk] at h ⊢
      exact h
    · rw [if_neg hk] at h ⊢
      exact ih h

/-- A key absent from the bag stays absent after appending a binding for a
different key. -/
lemma bagHas_append_false {bag : List (String × String)} {key : String}
    (h : bagHas bag key = false) {k : String} (hk : k ≠ key) (val : String) :
    bagHas (bag ++ [(k, val)]) key = false := by
  induction bag with
  | nil => simp [bagHas, bagFind, hk]
  | cons p rest ih =>
    obtain ⟨k0, v0⟩ := p
    simp only [bagHas, List.cons_append, bagFind] at h ⊢
    by_cases h0 : k0 = key
    · rw [if_pos h0] at h
      exact absurd h (by simp)
    · rw [if_neg h0] at h ⊢
      exact ih h

/-- Reaching a `select` variable whose stored value would be its (non-blank)
default lying outside its non-empty options makes the collection loop fail,
no matter what follows or preceded it — provided no earlier variable or
built-in already occupies its name. -/
lemma collectLoop_select_invalid (v : TemplateVar)
    (hk : v.Kind = "select") (ho : v.Options ≠ [])
    (hd : trimSpace v.Default ≠ "")
    (hnotin : contains v.Options v.Default = false) :
    ∀ (pre post : List TemplateVar) (inputs : List String)
      (bag : List (String × String)),
      bagHas bag v.Name = false →
      (∀ w ∈ pre, w.Name ≠ v.Name) →
      ∃ msg, collectLoop (pre ++ v :: post) inputs bag = Except.error msg := by
  intro pre
  induction pre with
  | nil =>
    intro post inputs bag hbag _
    refine ⟨"invalid value " ++ v.Default ++ " for variable " ++ v.Name, ?_⟩
    show collectLoop (v :: post) inputs bag = _
    unfold collectLoop
    rw [if_neg (by simp [hbag])]
    rw [if_neg (fun hc : v.Required = true ∧ trimSpace v.Default = "" => hd hc.2)]
    simp [hk, ho, hnotin]
  | cons w pre ih =>
    intro post inputs bag hbag hpre
    have hwname : w.Name ≠ v.Name := hpre w (List.mem_cons_self w pre)
    have hpre' : ∀ x ∈ pre, x.Name ≠ v.Name := fun x hx => hpre x (List.mem_cons_of_mem w hx)
    show ∃ msg, collectLoop (w :: (pre ++ v :: post)) inputs bag = Except.error msg
    by_cases hb : bagHas bag w.Name = true
    · obtain ⟨msg, hmsg⟩ := ih post inputs bag hbag hpre'
      refine ⟨msg, ?_⟩
      unfold collectLoop
      rw [if_pos hb]
      exact hmsg
    · cases hres : (if w.Required = true ∧ trimSpace w.Default = "" then
          promptForVariable inputs w else Except.ok (w.Default, inputs)) with
      | error e =>
        refine ⟨e, ?_⟩
        unfold collectLoop
        rw [if_neg hb, hres]
      | ok p =>
        obtain ⟨value, inputs'⟩ := p
        by_cases hsel : w.Kind = "select" ∧ w.Options ≠ [] ∧ contains w.Options value = false
        · refine ⟨"invalid value " ++ value ++ " for variable " ++ w.Name, ?_⟩
          unfold collectLoop
          rw [if_neg hb, hres]
          simp [hsel]
        · have hbag' : bagHas (bag ++ [(w.Name, value)]) v.Name = false :=
            bagHas_append_false hbag hwname value
          obtain ⟨msg, hmsg⟩ := ih post inputs' (bag ++ [(w.Name, value)]) hbag' hpre'
          refine ⟨msg, ?_⟩
          unfold collectLoop
          rw [if_neg hb, hres]
          simp only [if_neg hsel]
          exact hmsg

/-- A value already present in the bag survives the whole collection loop
unchanged (the loop skips occupied names and only ever appends). -/
lemma collectLoop_preserves :
    ∀ (vars : List TemplateVar) (inputs : List String)
      (bag : List (String × String)) (key val : String)
      (out : List (String × String) × List String),
      bagFind bag key = some val →
      collectLoop vars inputs bag = Except.ok out →
      bagFind out.1 key = some val := by
  intro vars
  induction vars with
  | nil =>
    intro inputs bag key val out hfind hok
    unfold collectLoop at hok
    cases hok
    exact hfind
  | cons v rest ih =>
    intro inputs bag key val out hfind hok
    unfold collectLoop at hok
    by_cases hb : bagHas bag v.Name = true
    · rw [if_pos hb] at hok
      exact ih inputs bag key val out hfind hok
    · rw [if_neg hb] at hok
      cases hres : (if v.Required = true ∧ trimSpace v.Default = "" then
          promptForVariable inputs v else Except.ok (v.Default, inputs)) with
      | error e =>
        rw [hres] at hok
        exact Except.noConfusion hok
      | ok p =>
        rw [hres] at hok
        obtain ⟨value, inputs'⟩ := p
        have hok' :
            (if v.Kind = "select" ∧ v.Options ≠ [] ∧ contains v.Options value = false then
              Except.error ("invalid value " ++ value ++ " for variable " ++ v.Name)
             else collectLoop rest inputs' (bag ++ [(v.Name, value)])) = Except.ok out := hok
        by_cases hsel : v.Kind = "select" ∧ v.Options ≠ [] ∧ contains v.Options value = false
        · rw [if_pos hsel] at hok'
          exact Except.noConfusion hok'
        · rw [if_neg hsel] at hok'
          exact ih inputs' (bag ++ [(v.Name, value)]) key val out
            (bagFind_append_of_some hfind [(v.Name, value)]) hok'

/-- `runPostCommands` returns `nil` on every path of the source. -/
lemma runPostCommands_ok (runCmd : String → String → Bool) (render : Renderer)
    (cfg : Option TemplateConfig) (projectName : String)
    (vars : List (String × String)) :
    (runPostCommands runCmd render cfg projectName vars).2 = Except.ok () := by
  cases cfg with
  | none => rfl
  | some c =>
    show (if c.PostGenerate = [] then (([] : List ExecutedCmd), Except.ok ())
      else (runPostLoop runCmd render projectName vars c.PostGenerate, Except.ok ())).2
        = Except.ok ()
    by_cases h : c.PostGenerate = []
    · rw [if_pos h]
    · rw [if_neg h]

/-- The commands attempted by the loop are exactly the declared commands,
rendered, in declared order — whatever the shell reports. -/
lemma runPostLoop_cmds (runCmd : String → String → Bool) (render : Renderer)
    (projectName : String) (vars : List (String × String)) :
    ∀ cmds : List PostCommand,
      (runPostLoop runCmd render projectName vars cmds).map ExecutedCmd.cmd
        = cmds.map (fun c => processCommandTemplate render c.Command vars) := by
  intro cmds
  induction cmds with
  | nil => rfl
  | cons c rest ih => simp [runPostLoop, ih]

/-- The writing stages perform the same mutations and return the same
result whatever the shell reports about individual commands. -/
lemma generateCore_indep (render : Renderer) (runCmd runCmd' : String → String → Bool)
    (cfg : Option TemplateConfig) (entries : List Entry)
    (projectName : String) (vars : List (String × String)) :
    (generateCore render runCmd cfg entries projectName vars).fsActions
      = (generateCore render runCmd' cfg entries projectName vars).fsActions ∧
    (generateCore render runCmd cfg entries projectName vars).result
      = (generateCore render runCmd' cfg entries projectName vars).result := by
  unfold generateCore
  cases hgf : generateFiles render (cfgRules cfg) projectName vars entries with
  | mk acts r =>
    cases r with
    | error e => exact ⟨rfl, rfl⟩
    | ok u =>
      cases hp : runPostCommands runCmd render cfg projectName vars with
      | mk execd r1 =>
        cases hp' : runPostCommands runCmd' render cfg projectName vars with
        | mk execd' r2 =>
          have h1 : r1 = Except.ok () := by
            have hx := runPostCommands_ok runCmd render cfg projectName vars
            rw [hp] at hx
            exact hx
          have h2 : r2 = Except.ok () := by
            have hx := runPostCommands_ok runCmd' render cfg projectName vars
            rw [hp'] at hx
            exact hx
          subst h1
          subst h2
          exact ⟨rfl, rfl⟩

/-! ### Claim theorems -/

/-- C1: for every rule list and every path whose normalization is
non-empty, `mapTargetPath` evaluates the rules in declared order and
returns the mapped path of the first rule that matches (first-match
semantics, here expressed through `List.findSome?`); in particular for
rules `[(dir a -> x), (dir "" -> y)]` the path `a/b.txt` maps to `x/b.txt`
and never to `y/a/b.txt`. -/
theorem orderedFirstMatchWins :
    (∀ (rules : List FileRule) (path : String), normalizePath path ≠ "" →
      mapTargetPath rules path =
        match List.findSome? (fun r => applyRule r (normalizePath path)) rules with
        | some mapped => (mapped, true)
        | none => (normalizePath path, false)) ∧
    mapTargetPath [⟨"a", "x", "directory", ""⟩, ⟨"", "y", "directory", ""⟩] "a/b.txt"
      = ("x/b.txt", true) := by
  constructor
  · intro rules path h
    unfold mapTargetPath
    rw [if_neg h]
    exact mapLoop_eq_findSome rules (normalizePath path)
  · decide

/-- Witness for C1 at a concrete rule list and path. -/
theorem orderedFirstMatchWins_witness :
    mapTargetPath [⟨"docs", "d", "directory", ""⟩] "docs/x.md"
      = match List.findSome? (fun r => applyRule r (normalizePath "docs/x.md"))
            [FileRule.mk "docs" "d" "directory" ""] with
        | some mapped => (mapped, true)
        | none => (normalizePath "docs/x.md", false) :=
  orderedFirstMatchWins.1 [⟨"docs", "d", "directory", ""⟩] "docs/x.md" (by decide)

/-- C2 counterexample: the single rule `{source:"", target:"", kind:"directory"}`
does not match the path `a.txt` — the mapper returns `matched = false`, not
the claimed catch-all identity match. -/
theorem emptySourceRuleCounterexample :
    mapTargetPath [⟨"", "", "directory", ""⟩] "a.txt" = ("a.txt", false) := by decide

/-- C2 amended: a rule whose source is blank after whitespace trimming is
skipped by the loop, so the single rule `{source:"", target:"", kind:"directory"}`
leaves every path with non-empty normalization unmatched; the catch-all
behavior belongs to a directory rule whose non-blank source reduces to
empty only after stripping the leading `./` or `/` (for example source
`"/"`), which maps every path to itself (under an empty target) with
`matched = true`. -/
theorem emptySourceSkippedSlashCatchAll :
    (∀ path : String, normalizePath path ≠ "" →
      mapTargetPath [⟨"", "", "directory", ""⟩] path = (normalizePath path, false)) ∧
    (∀ path : String,
      mapTargetPath [⟨"/", "", "directory", ""⟩] path = (normalizePath path, true)) := by
  constructor
  · intro path h
    unfold mapTargetPath
    rw [if_neg h]
    exact mapLoop_all_none fun r hr => by
      rcases List.mem_singleton.mp hr with rfl
      rfl
  · intro path
    by_cases h : normalizePath path = ""
    · unfold mapTargetPath
      rw [if_pos h, h]
    · unfold mapTargetPath
      rw [if_neg h]
      have happ : applyRule ⟨"/", "", "directory", ""⟩ (normalizePath path)
          = some (joinRuleTarget "" (normalizePath path)) := rfl
      unfold mapLoop
      rw [happ]
      have hjoin : joinRuleTarget "" (normalizePath path) = normalizePath path := by
        unfold joinRuleTarget
        simp [h, trimSpace, trimSlashes]
      rw [hjoin]

/-- Witness for the amended C2 at a concrete path. -/
theorem emptySourceSkippedSlashCatchAll_witness :
    mapTargetPath [⟨"", "", "directory", ""⟩] "src/app.go"
      = (normalizePath "src/app.go", false) :=
  emptySourceSkippedSlashCatchAll.1 "src/app.go" (by decide)

/-- C3 counterexample: with an empty rule list the mapper reports
`matched = false` for `a.txt`, not the claimed `matched = true`. -/
theorem emptyRulesCounterexample :
    mapTargetPath [] "a.txt" = ("a.txt", false) := by decide

/-- C3 amended: with an empty rule list the mapper returns the normalized
path with `matched = false`; rule-free identity mode lives one level up —
`generateFiles` does not consult the mapper when no rules are declared and
keeps every walked entry (other than the walk root and `template.yaml`)
under its own unchanged path. -/
theorem emptyRulesMapperFalseWalkKeeps :
    (∀ path : String, normalizePath path ≠ "" →
      mapTargetPath [] path = (normalizePath path, false)) ∧
    (∀ path : String, path ≠ "." → path ≠ "template.yaml" →
      entryTarget [] path = some path) := by
  constructor
  · intro path h
    unfold mapTargetPath
    rw [if_neg h]
    rfl
  · intro path h1 h2
    unfold entryTarget
    rw [if_neg h1, if_neg h2, if_pos rfl]

/-- Witness for the amended C3 at a concrete path. -/
theorem emptyRulesMapperFalseWalkKeeps_witness :
    mapTargetPath [] "src/main.go" = (normalizePath "src/main.go", false) ∧
    entryTarget [] "src/main.go" = some "src/main.go" :=
  ⟨emptyRulesMapperFalseWalkKeeps.1 "src/main.go" (by decide),
   emptyRulesMapperFalseWalkKeeps.2 "src/main.go" (by decide) (by decide)⟩

/-- C4: a file rule matches only on exact equality of the normalized path
with its (trimmed) source; on a match the output is the trimmed target if
non-empty, else the base name of the source, with a leading `./` stripped;
in particular `{source:"README.md", target:"docs/readme.md", kind:"file"}`
maps `README.md` to `docs/readme.md` and leaves `README.md.bak`
unmatched. -/
theorem fileRuleExactMatch :
    (∀ (rule : FileRule) (path : String), trimSpace rule.Kind = "file" →
      normalizePath path ≠ "" →
      mapTargetPath [rule] path =
        (if trimSpace rule.Source ≠ "" ∧
            normalizePath path
              = trimTrail (trimLead (trimLead (trimSpace rule.Source) "./") "/") "/" then
          (trimLead
            (if trimSpace rule.Target = "" then
              baseName (trimTrail (trimLead (trimLead (trimSpace rule.Source) "./") "/") "/")
             else trimSpace rule.Target) "./", true)
         else (normalizePath path, false))) ∧
    mapTargetPath [⟨"README.md", "docs/readme.md", "file", ""⟩] "README.md"
      = ("docs/readme.md", true) ∧
    mapTargetPath [⟨"README.md", "docs/readme.md", "file", ""⟩] "README.md.bak"
      = ("README.md.bak", false) := by
  refine ⟨?_, by decide, by decide⟩
  intro rule path hkind hn
  unfold mapTargetPath
  rw [if_neg hn]
  unfold mapLoop
  unfold applyRule
  rw [hkind]
  by_cases hsrc : trimSpace rule.Source = ""
  · simp [hsrc, mapLoop]
  · rw [if_neg hsrc]
    by_cases heq : normalizePath path
        = trimTrail (trimLead (trimLead (trimSpace rule.Source) "./") "/") "/"
    · simp only [heq]
      simp [hsrc]
    · simp [hsrc, heq, mapLoop]

/-- Witness for C4 at a concrete file rule with an empty target (base-name
fallback). -/
theorem fileRuleExactMatch_witness :
    mapTargetPath [⟨"conf/config.yaml", "", "file", ""⟩] "conf/config.yaml"
      = ("config.yaml", true) := by
  have h := fileRuleExactMatch.1 ⟨"conf/config.yaml", "", "file", ""⟩ "conf/config.yaml"
    (by decide) (by decide)
  rw [h]
  decide

/-- C5: when the rule list is non-empty and an entry's (non-trivially
normalized) path matches no rule, the mapper returns `matched = false` and
the walk callback produces no file-system action and no error — the entry
is silently skipped. -/
theorem unmatchedEntrySkipped (render : Renderer) (rules : List FileRule)
    (projectName : String) (vars : List (String × String)) (e : Entry)
    (hr : rules ≠ []) (hn : normalizePath e.path ≠ "")
    (hm : ∀ r ∈ rules, applyRule r (normalizePath e.path) = none) :
    mapTargetPath rules e.path = (normalizePath e.path, false) ∧
    entryActions render rules projectName vars e = ([], Except.ok ()) := by
  have hmap : mapTargetPath rules e.path = (normalizePath e.path, false) := by
    unfold mapTargetPath
    rw [if_neg hn]
    exact mapLoop_all_none hm
  refine ⟨hmap, ?_⟩
  have ht : entryTarget rules e.path = none := by
    unfold entryTarget
    by_cases h1 : e.path = "."
    · rw [if_pos h1]
    · by_cases h2 : e.path = "template.yaml"
      · rw [if_neg h1, if_pos h2]
      · rw [if_neg h1, if_neg h2, if_neg hr, hmap]
  unfold entryActions
  rw [ht]

/-- Witness for C5: a text entry matching neither declared rule is
skipped without an action or error. -/
theorem unmatchedEntrySkipped_witness :
    mapTargetPath [⟨"src", "out", "directory", ""⟩, ⟨"go.mod", "", "file", ""⟩] "notes.txt"
      = (normalizePath "notes.txt", false) ∧
    entryActions (fun s => Except.ok fun _ => Except.ok s)
      [⟨"src", "out", "directory", ""⟩, ⟨"go.mod", "", "file", ""⟩]
      "proj" [] ⟨"notes.txt", false, "hello"⟩ = ([], Except.ok ()) :=
  unmatchedEntrySkipped (fun s => Except.ok fun _ => Except.ok s)
    [⟨"src", "out", "directory", ""⟩, ⟨"go.mod", "", "file", ""⟩]
    "proj" [] ⟨"notes.txt", false, "hello"⟩
    (by decide) (by decide) (by decide)

/-- C10: a path whose normalization is empty is mapped to the empty path
with `matched = true` without consulting any rule, and even with a
non-empty rule list the walk keeps such an entry (it is never filtered
out). -/
theorem emptyNormalizedAlwaysKept (rules : List FileRule) (path : String)
    (h : normalizePath path = "") :
    mapTargetPath rules path = ("", true) ∧
    (rules ≠ [] → entryTarget rules path = some "") := by
  have hmap : mapTargetPath rules path = ("", true) := by
    unfold mapTargetPath
    rw [if_pos h]
  refine ⟨hmap, fun hr => ?_⟩
  have h1 : path ≠ "." := by
    intro he
    rw [he] at h
    exact absurd h (by decide)
  have h2 : path ≠ "template.yaml" := by
    intro he
    rw [he] at h
    exact absurd h (by decide)
  unfold entryTarget
  rw [if_neg h1, if_neg h2, if_neg hr, hmap]

/-- Witness for C10 at the path `/` against a rule list that could not
match it. -/
theorem emptyNormalizedAlwaysKept_witness :
    mapTargetPath [⟨"src", "out", "directory", ""⟩] "/" = ("", true) ∧
    ([⟨"src", "out", "directory", ""⟩] ≠ ([] : List FileRule) →
      entryTarget [⟨"src", "out", "directory", ""⟩] "/" = some "") :=
  emptyNormalizedAlwaysKept [⟨"src", "out", "directory", ""⟩] "/" (by decide)

/-- C6: a config containing a `select` variable whose resolved value (its
non-blank default, not shadowed by a built-in or an earlier declaration of
the same name) lies outside its non-empty options makes `Generate` fail
before any file-system mutation: no directory is created, no file is
written, no command is run. -/
theorem selectValidationPrecedesWrites
    (c : TemplateConfig) (v : TemplateVar) (pre post : List TemplateVar)
    (entries : List Entry) (projectName : String) (inputs : List String)
    (render : Renderer) (runCmd : String → String → Bool)
    (hvars : c.Variables = pre ++ v :: post)
    (hk : v.Kind = "select") (ho : v.Options ≠ [])
    (hd : trimSpace v.Default ≠ "")
    (hnotin : contains v.Options v.Default = false)
    (hname1 : v.Name ≠ "ProjectName") (hname2 : v.Name ≠ "ModuleName")
    (hpre : ∀ w ∈ pre, w.Name ≠ v.Name) :
    ∃ msg, Generate StatResult.notFound (some c) entries projectName inputs render runCmd
      = ⟨[], [], Except.error msg⟩ := by
  have hbag0 : bagHas [("ProjectName", projectName), ("ModuleName", projectName)] v.Name
      = false := by
    simp [bagHas, bagFind, Ne.symm hname1, Ne.symm hname2]
  obtain ⟨msg, hmsg⟩ :=
    collectLoop_select_invalid v hk ho hd hnotin pre post inputs
      [("ProjectName", projectName), ("ModuleName", projectName)] hbag0 hpre
  refine ⟨msg, ?_⟩
  show (match collectVariables (some c) projectName inputs with
    | Except.error e => (⟨[], [], Except.error e⟩ : GenOutcome)
    | Except.ok (vars, _) => generateCore render runCmd (some c) entries projectName vars) = _
  have hcv : collectVariables (some c) projectName inputs = Except.error msg := by
    show collectLoop c.Variables inputs
      [("ProjectName", projectName), ("ModuleName", projectName)] = Except.error msg
    rw [hvars]
    exact hmsg
  rw [hcv]

/-- Witness for C6: a one-variable config whose select default `zzz` is
outside the options aborts with no action performed. -/
theorem selectValidationPrecedesWrites_witness :
    ∃ msg,
      Generate StatResult.notFound
        (some ⟨"t", "", "", "", "", [], [⟨"db", "select", false, "zzz", ["pg", "none"], ""⟩],
          [], []⟩)
        [⟨"main.go", false, "package main"⟩] "proj" []
        (fun s => Except.ok fun _ => Except.ok s) (fun _ _ => true)
      = ⟨[], [], Except.error msg⟩ :=
  selectValidationPrecedesWrites
    ⟨"t", "", "", "", "", [], [⟨"db", "select", false, "zzz", ["pg", "none"], ""⟩], [], []⟩
    ⟨"db", "select", false, "zzz", ["pg", "none"], ""⟩ [] []
    [⟨"main.go", false, "package main"⟩] "proj" []
    (fun s => Except.ok fun _ => Except.ok s) (fun _ _ => true)
    rfl rfl (by decide) (by decide) (by decide) (by decide) (by decide)
    (by intro w hw; cases hw)

/-- C7: variable collection seeds the bag with the built-in `ProjectName`
and `ModuleName` entries before consulting the config, and a value already
present under a key is never overridden by a later declaration
(first-write-wins); hence `ProjectName` and `ModuleName` in any successful
result are the project name, independent of the config's declarations. -/
theorem builtinsFirstWriteWins :
    (∀ (cfg : Option TemplateConfig) (projectName : String) (inputs : List String)
        (out : List (String × String) × List String),
      collectVariables cfg projectName inputs = Except.ok out →
      bagFind out.1 "ProjectName" = some projectName ∧
      bagFind out.1 "ModuleName" = some projectName) ∧
    (∀ (vars : List TemplateVar) (inputs : List String)
        (bag : List (String × String)) (key val : String)
        (out : List (String × String) × List String),
      bagFind bag key = some val →
      collectLoop vars inputs bag = Except.ok out →
      bagFind out.1 key = some val) := by
  refine ⟨?_, collectLoop_preserves⟩
  intro cfg projectName inputs out hok
  have h1 : bagFind [("ProjectName", projectName), ("ModuleName", projectName)]
      "ProjectName" = some projectName := rfl
  have h2 : bagFind [("ProjectName", projectName), ("ModuleName", projectName)]
      "ModuleName" = some projectName := rfl
  cases cfg with
  | none =>
    have hok' : Except.ok ([("ProjectName", projectName), ("ModuleName", projectName)],
        inputs) = Except.ok out := hok
    cases hok'
    exact ⟨h1, h2⟩
  | some c =>
    have hok' : collectLoop c.Variables inputs
        [("ProjectName", projectName), ("ModuleName", projectName)] = Except.ok out := hok
    exact ⟨collectLoop_preserves _ _ _ _ _ _ h1 hok',
           collectLoop_preserves _ _ _ _ _ _ h2 hok'⟩

/-- Witness for C7: a config that declares its own `ProjectName` variable
with a different default cannot displace the built-in value. -/
theorem builtinsFirstWriteWins_witness :
    bagFind [("ProjectName", "demo"), ("ModuleName", "demo")] "ProjectName" = some "demo" ∧
    bagFind [("ProjectName", "demo"), ("ModuleName", "demo")] "ModuleName" = some "demo" :=
  builtinsFirstWriteWins.1
    (some ⟨"t", "", "", "", "", [],
      [⟨"ProjectName", "string", false, "override", [], ""⟩], [], []⟩)
    "demo" [] ([("ProjectName", "demo"), ("ModuleName", "demo")], []) rfl

/-- C8: the command phase returns success whatever the shell reports, every
declared command is attempted (rendered, in declared order) regardless of
earlier failures, the overall `Generate` outcome (actions and result) does
not depend on command success at all, and concretely a failing first
command does not stop the second. -/
theorem commandFailureIsolation :
    (∀ (runCmd : String → String → Bool) (render : Renderer)
        (cfg : Option TemplateConfig) (projectName : String)
        (vars : List (String × String)),
      (runPostCommands runCmd render cfg projectName vars).2 = Except.ok ()) ∧
    (∀ (runCmd : String → String → Bool) (render : Renderer)
        (cfg : Option TemplateConfig) (projectName : String)
        (vars : List (String × String)),
      ((runPostCommands runCmd render cfg projectName vars).1).map ExecutedCmd.cmd
        = (cfgCommands cfg).map (fun c => processCommandTemplate render c.Command vars)) ∧
    (∀ (stat : StatResult) (cfg : Option TemplateConfig) (entries : List Entry)
        (projectName : String) (inputs : List String) (render : Renderer)
        (runCmd runCmd' : String → String → Bool),
      (Generate stat cfg entries projectName inputs render runCmd).fsActions
        = (Generate stat cfg entries projectName inputs render runCmd').fsActions ∧
      (Generate stat cfg entries projectName inputs render runCmd).result
        = (Generate stat cfg entries projectName inputs render runCmd').result) ∧
    (runPostCommands (fun c _ => c != "fail") (fun s => Except.ok fun _ => Except.ok s)
        (some ⟨"t", "", "", "", "", [], [], [], [⟨"fail", ""⟩, ⟨"echo done", ""⟩]⟩)
        "proj" []).1
      = [⟨"fail", "proj", false⟩, ⟨"echo done", "proj", true⟩] := by
  refine ⟨runPostCommands_ok, ?_, ?_, rfl⟩
  · intro runCmd render cfg projectName vars
    cases cfg with
    | none => rfl
    | some c =>
      show (if c.PostGenerate = [] then (([] : List ExecutedCmd), Except.ok ())
        else (runPostLoop runCmd render projectName vars c.PostGenerate, Except.ok ())).1.map
          ExecutedCmd.cmd = _
      by_cases h : c.PostGenerate = []
      · rw [if_pos h]
        show ([] : List String) = (cfgCommands (some c)).map _
        rw [show cfgCommands (some c) = c.PostGenerate from rfl, h]
        rfl
      · rw [if_neg h]
        exact runPostLoop_cmds runCmd render projectName vars c.PostGenerate
  · intro stat cfg entries projectName inputs render runCmd runCmd'
    cases stat with
    | found => exact ⟨rfl, rfl⟩
    | failed msg => exact ⟨rfl, rfl⟩
    | notFound =>
      unfold Generate
      cases hcv : collectVariables cfg projectName inputs with
      | error e => exact ⟨rfl, rfl⟩
      | ok p =>
        obtain ⟨vars, rest⟩ := p
        exact generateCore_indep render runCmd runCmd' cfg entries projectName vars

/-- C9: when rendering a command string fails — at the parse stage or at
the execution stage — the failure is swallowed and the original unrendered
command text is returned unchanged. -/
theorem commandRenderFallback :
    (∀ (render : Renderer) (command : String) (vars : List (String × String)) (e : String),
      render command = Except.error e →
      processCommandTemplate render command vars = command) ∧
    (∀ (render : Renderer) (command : String) (vars : List (String × String))
        (exec : List (String × String) → Except String String) (e : String),
      render command = Except.ok exec → exec vars = Except.error e →
      processCommandTemplate render command vars = command) := by
  constructor
  · intro render command vars e h
    unfold processCommandTemplate
    rw [h]
  · intro render command vars exec e h1 h2
    unfold processCommandTemplate
    rw [h1]
    show (match exec vars with
      | Except.error _ => command
      | Except.ok s => s) = command
    rw [h2]

/-- Witness for C9: a renderer that rejects every template leaves the
command text untouched. -/
theorem commandRenderFallback_witness :
    processCommandTemplate (fun _ => Except.error "syntax") "npm install" [] = "npm install" :=
  commandRenderFallback.1 (fun _ => Except.error "syntax") "npm install" [] "syntax" rfl

end AaaGen
